import Mathlib

/-!
# fast-tree: the benchmark driver (`src/main.cpp`)

A shallow embedding of `read_test_data` and of `main`, and the properties of
the lookup-table construction, the split-value array, the batch loop, the
sentinel translation and the evaluator dispatch.

Conventions of the embedding.

* A `float` is a `Flt`: NaN or a number. A decimal literal of the source
  stands for the `float` it is rounded to, so two occurrences of the same
  literal are the same value.
* A C array is a `List`; the pointer `&a[i]` is `a.drop i`; `a[i] = v` is
  `a.set i v`. An array declared without initialiser starts from arbitrary
  contents, which the embedding takes as an argument.
* An `int` is an integer, and `int` arithmetic is taken modulo `2^32` into the range
  `-2^31 .. 2^31 - 1` (`wrap32`). The counts `num_rows` and `num_cols` of
  `read_test_data` and of the batch loop are `int`s; loop counters that run from 0 up
  to such a count are natural numbers. The driver runs with the constants
  `NUM_ROWS = 550000` and `NUM_COLS = 30`, whose product is far below `2^31`
  (`driver_counts_fit_int`).
* A call that can end in more than one way returns an `Outcome`; a run of `main` that
  has no orderly end is `none`.
* Code of `eval.h`, `eval-simd.h`, `model.h`, `timing.h` and of the C++ stream
  library is not part of `main.cpp`; it enters as the fields of
  `Collaborators` and `IStream`.
-/

namespace FastTree

/-! ## Values -/

/-- A `float` value: NaN, or a number. -/
inductive Flt where
  | nan : Flt
  | num (q : ℚ) : Flt
deriving DecidableEq

/-- The comparison `a == b` on `float`: NaN is equal to nothing, itself included. -/
def Flt.feq : Flt → Flt → Bool
  | .num a, .num b => decide (a = b)
  | _, _ => false

/-- The predicate `std::isnan`. -/
def Flt.isNaN : Flt → Bool
  | .nan => true
  | .num _ => false

/-- Modelled from the spec: the declaration of `node_t` lives in `model.h`, which is
not among the sources; the fields are the attributes the specification gives a Node. -/
structure node_t where
  feature_index : Nat
  split_value : Flt
  is_leaf : Bool
  leaf_value : Flt
  right_offset : Nat
  visit_count : Nat
deriving DecidableEq

/-! ## The simd branch: lookup table and split values (`main.cpp` 110-135) -/

/-- One pass of the body of the loop of lines 112-130 at index `i`: the mask of the
test that fires, and the constant that branch assigns to `lookup_table[i]`. -/
def lookup_rule (i : Nat) : Nat × Flt :=
  if (i &&& 11) = 11 then (11, .num (-0.0825883001))
  else if (i &&& 3) = 3 then (3, .num 0.063217625)
  else if (i &&& 17) = 17 then (17, .num 0.138557851)
  else if (i &&& 1) = 1 then (1, .num (-0.160050601))
  else if (i &&& 36) = 36 then (36, .num (-0.09623261541))
  else if (i &&& 4) = 4 then (4, .num 0.0580137558)
  else if (i &&& 64) = 64 then (64, .num (-0.183263466))
  else (0, .num (-0.0119630694))

/-- The masks of the tests of lines 113-129, in the order they are tested (the final
`else` is the test of mask 0, as the comment of line 128 says). -/
def tested_masks : List Nat := [11, 3, 17, 1, 36, 4, 64, 0]

/-- The constants assigned by the eight branches, in the order of the branches. -/
def leaf_constants : List Flt :=
  [.num (-0.0825883001), .num 0.063217625, .num 0.138557851, .num (-0.160050601),
   .num (-0.09623261541), .num 0.0580137558, .num (-0.183263466), .num (-0.0119630694)]

/-- The assignments the loop of lines 112-130 performs, in order: each pass `i` of
`for (int i = 0; i < 128; ++i)` takes one branch, which stores one value at index `i`. -/
def lookup_table_writes : List (Nat × Flt) :=
  (List.range 128).map (fun i => (i, (lookup_rule i).2))

/-- The loop of lines 112-130, run on the array `lookup_table` as declared on line 111
(no initialiser: the argument is its arbitrary starting contents). -/
def build_lookup_table (lookup_table : List Flt) : List Flt :=
  lookup_table_writes.foldl (fun t w => t.set w.1 w.2) lookup_table

/-- Lines 131-135 on the array `split_values` as declared on line 131. Reading
`model[i]` past the end of the vector has no defined result: `none`. -/
def build_split_values (model : List node_t) (split_values : List Flt) : Option (List Flt) :=
  ((List.range 7).foldlM
      (fun sv i => (model[i]?).map (fun nd => sv.set i nd.split_value)) split_values).map
    (fun sv => sv.set 7 (.num 0.0))

/-- Lines 111-135: the lookup table, and the split values when they are defined. The
table is built first and from the index alone. -/
def simd_setup (model : List node_t) (lookup_table split_values : List Flt) :
    List Flt × Option (List Flt) :=
  (build_lookup_table lookup_table, build_split_values model split_values)

/-! ### The depth-3 tree of the specification -/

/-- From the specification: one breadth-first descent of the complete tree whose internal
nodes are 1..7, driven by the bits of `i`: at internal node `j` go to `2j` when bit `j-1`
of `i` is set and to `2j+1` otherwise; stop at a leaf (a node from 8 on). -/
def bfs_descend : Nat → Nat → Nat → Nat
  | 0, _, node => node
  | fuel + 1, i, node =>
    if node < 8 then
      bfs_descend fuel i (if i.testBit (node - 1) then 2 * node else 2 * node + 1)
    else node

/-- From the specification: the leaf reached from the root, node 1. Three steps reach
the leaves 8..15. -/
def bfs_leaf (i : Nat) : Nat := bfs_descend 3 i 1

/-- From the specification: the internal nodes the descent `bfs_descend` passes through. -/
def bfs_visited : Nat → Nat → Nat → List Nat
  | 0, _, _ => []
  | fuel + 1, i, node =>
    if node < 8 then
      node :: bfs_visited fuel i (if i.testBit (node - 1) then 2 * node else 2 * node + 1)
    else []

/-- From the specification: the internal nodes on the path from the root for index `i`. -/
def bfs_path (i : Nat) : List Nat := bfs_visited 3 i 1

/-- From the specification: the constants carried by the leaves 8..15, left to right. -/
def leaf_value : Nat → Option Flt
  | 8 => some (.num (-0.0825883001))
  | 9 => some (.num 0.063217625)
  | 10 => some (.num 0.138557851)
  | 11 => some (.num (-0.160050601))
  | 12 => some (.num (-0.09623261541))
  | 13 => some (.num 0.0580137558)
  | 14 => some (.num (-0.183263466))
  | 15 => some (.num (-0.0119630694))
  | _ => none

/-- From the specification: the fixed depth-3 shape, 7 internal nodes and 8 leaves. -/
def is_fixed_depth3_shape (model : List node_t) : Bool :=
  (model.filter (fun nd => !nd.is_leaf)).length == 7 &&
    (model.filter (fun nd => nd.is_leaf)).length == 8

/-! ## The type `int` and the ways a call ends -/

/-- The largest `int`. -/
def INT_MAX : Int := 2147483647

/-- The `int` that an arithmetic expression of mathematical value `x` evaluates to: the
value modulo `2^32` taken in the range `-2^31 .. 2^31 - 1` (two's complement). -/
def wrap32 (x : Int) : Int := (x + 2147483648) % 4294967296 - 2147483648

/-- How a call of `read_test_data` ends: it returns a value, an exception leaves it, or
it stores outside the array it allocated (no defined behaviour). -/
inductive Outcome (α : Type) where
  | ok (a : α) : Outcome α
  | throws : Outcome α
  | undefined : Outcome α

/-- Sequencing: what follows runs only after a normal end. -/
def Outcome.bind {α β : Type} : Outcome α → (α → Outcome β) → Outcome β
  | .ok a, f => f a
  | .throws, _ => .throws
  | .undefined, _ => .undefined

/-- The value returned, transformed. -/
def Outcome.map {α β : Type} (f : α → β) : Outcome α → Outcome β
  | .ok a => .ok (f a)
  | .throws => .throws
  | .undefined => .undefined

/-! ## `read_test_data` (`main.cpp` 12-37) -/

/-- The three operations `read_test_data` performs on its `std::ifstream`, as functions
of the state of the stream (library code, taken as given). -/
structure IStream (σ : Type) where
  /-- The extraction `infile >> f` into the fresh variable `f` of line 22: the value `f`
  holds afterwards (also when nothing could be extracted), and the stream. -/
  extract : σ → Flt × σ
  /-- The call `std::getline(infile, buffer, ',')`. -/
  getline_comma : σ → σ
  /-- The call `std::getline(infile, buffer)`. -/
  getline : σ → σ

/-- Lines 24-26: the sentinel test on the value just parsed. -/
def translate_missing (missing_val f : Flt) : Flt :=
  if f.feq missing_val then Flt.nan else f

/-- Lines 22-30, pass `j` of the inner loop in row `i`. `d[j]` with
`d = &values[i * num_cols]` is the element of `values` at offset `i * num_cols + j`,
the product being an `int`; a store outside the array has no defined behaviour. -/
def read_cell {σ : Type} (S : IStream σ) (num_cols : Int) (missing_val : Flt) (i : Nat)
    (st : List Flt × σ) (j : Nat) : Outcome (List Flt × σ) :=
  let r := S.extract st.2
  let f := translate_missing missing_val r.1
  let s := if (j : Int) ≠ wrap32 (num_cols - 1) then S.getline_comma r.2 else r.2
  let k := wrap32 ((i : Int) * num_cols) + (j : Int)
  if 0 ≤ k ∧ k < (st.1.length : Int) then Outcome.ok (st.1.set k.toNat f, s)
  else Outcome.undefined

/-- Lines 20-32, pass `i` of the outer loop: the passes `j = 0, 1, ..` below `num_cols`
of the inner loop, then the rest of the line is skipped. -/
def read_row {σ : Type} (S : IStream σ) (num_cols : Int) (missing_val : Flt)
    (acc : Outcome (List Flt × σ)) (i : Nat) : Outcome (List Flt × σ) :=
  Outcome.map (fun st => (st.1, S.getline st.2))
    ((List.range num_cols.toNat).foldl
      (fun a j => a.bind (fun st => read_cell S num_cols missing_val i st j)) acc)

/-- The function `read_test_data`. `infile` is the stream when the file could be opened
and `none` when it could not (`if (infile)` of line 18). Line 15 multiplies two `int`s
and hands the product to `std::make_unique<float[]>`, which takes a `size_t`: a negative
product becomes a size no allocation can serve and `std::bad_array_new_length` is
thrown; otherwise the array is allocated (memory is taken to suffice) and its elements
are value-initialised, that is `0.0f`. The outer loop makes the passes `i = 0, 1, ..`
below `num_rows`. -/
def read_test_data {σ : Type} (S : IStream σ) (infile : Option σ) (num_rows num_cols : Int)
    (missing_val : Flt) : Outcome (List Flt) :=
  let n := wrap32 (num_rows * num_cols)
  if n < 0 then Outcome.throws
  else
    let values := List.replicate n.toNat (Flt.num 0.0)
    match infile with
    | some s =>
      Outcome.map Prod.fst
        ((List.range num_rows.toNat).foldl (read_row S num_cols missing_val)
          (Outcome.ok (values, s)))
    | none => Outcome.ok values

/-- The state of the stream in a row that starts in state `s`, after `j` cells of it
have been read. -/
def stream_after_cells {σ : Type} (S : IStream σ) (num_cols : Int) (s : σ) : Nat → σ
  | 0 => s
  | j + 1 =>
    let s1 := (S.extract (stream_after_cells S num_cols s j)).2
    if (j : Int) ≠ wrap32 (num_cols - 1) then S.getline_comma s1 else s1

/-- The state of the stream at the start of row `i`, for a file opened in state `s`. -/
def stream_at_row {σ : Type} (S : IStream σ) (num_cols : Int) (s : σ) : Nat → σ
  | 0 => s
  | i + 1 =>
    S.getline (stream_after_cells S num_cols (stream_at_row S num_cols s i) num_cols.toNat)

/-- The field parsed for the cell of row `i` and column `j`: what `infile >> f` leaves in
`f` in pass `j` of row `i`. -/
def parsed_field {σ : Type} (S : IStream σ) (num_cols : Int) (s : σ) (i j : Nat) : Flt :=
  (S.extract (stream_after_cells S num_cols (stream_at_row S num_cols s i) j)).1

/-- A concrete stream for examples: the rows still to be read, each the list of its
fields still to be read. Extraction takes the next field of the current row (and leaves
`0` when there is none), the comma call has nothing to do, the line call goes to the
next row. -/
def rows_stream : IStream (List (List Flt)) where
  extract := fun s =>
    match s with
    | (f :: fs) :: rest => (f, fs :: rest)
    | _ => (Flt.num 0, s)
  getline_comma := fun s => s
  getline := fun s => s.tail

/-! ## `main` (`main.cpp` 39-157) -/

/-- The five branches of `main`. -/
inductive Benchmark where
  | breadth_first
  | preorder
  | preorder_cover
  | treelite
  | simd
deriving DecidableEq

/-- One pass of a batch loop: the evaluator called, the counter `i`, the pointer
`&test_inputs[i]` it is given, and the prediction written to `predictions.csv`. -/
structure Iteration where
  evaluator : Benchmark
  i : Int
  row : List Flt
  prediction : Flt
deriving DecidableEq

/-- The passes of `for (int i = ..; i < bound; i += num_cols)` from counter value `i` on,
at most `fuel` of them. A pass needs the element `test_inputs[i]` to exist, calls the
evaluator on `&test_inputs[i]` and writes the result as the next line of the output; the
counter is an `int`. The result is `none` when a pass has no defined behaviour or the
passes allowed are used up. -/
def batch_loop_from (b : Benchmark) (evaluate : List Flt → Flt) (test_inputs : List Flt)
    (bound num_cols : Int) : Nat → Int → Option (List Iteration)
  | 0, _ => none
  | fuel + 1, i =>
    if i < bound then
      if 0 ≤ i ∧ i < (test_inputs.length : Int) then
        (batch_loop_from b evaluate test_inputs bound num_cols fuel
            (wrap32 (i + num_cols))).map
          (fun rest =>
            Iteration.mk b i (test_inputs.drop i.toNat) (evaluate (test_inputs.drop i.toNat)) ::
              rest)
      else none
    else some []

/-- The batch loop `for (int i = 0; i < NUM_ROWS * NUM_COLS; i += NUM_COLS)` of lines
61, 74, 87, 99 and 138; the bound is the `int` product. The counter has `2^32` values,
so a loop that has not ended after `2^32` passes never ends: `none` stands for a run of
the loop that has no defined behaviour or does not end. -/
def batch_loop (b : Benchmark) (evaluate : List Flt → Flt) (test_inputs : List Flt)
    (num_rows num_cols : Int) : Option (List Iteration) :=
  batch_loop_from b evaluate test_inputs (wrap32 (num_rows * num_cols)) num_cols
    4294967296 0

/-- What `main.cpp` uses and does not define: the files, the functions of `model.h`,
`eval.h`, `eval-simd.h` and `timing.h`, and the starting contents of the two arrays the
simd branch declares without initialiser. The evaluators are taken as functions of
their arguments. -/
structure Collaborators (σ : Type) where
  stream : IStream σ
  /-- Opening a file for reading: its stream, or `none` when it cannot be opened. -/
  open_file : String → Option σ
  read_model_breadth_first : String → List node_t
  /-- The loader `read_model_preorder`; the second argument is `none` in the call of
  line 72, which leaves it out, and `some true` in the call of line 85. -/
  read_model_preorder : String → Option Bool → List node_t
  evaluate_tree_regression_yelp_breadth_first : List node_t → List Flt → Flt
  evaluate_tree_regression_yelp_preorder : List node_t → List Flt → Flt
  evaluate_tree_regression_yelp_preorder_cover : List node_t → List Flt → Flt
  evaluate_tree_regression_treelite : List Flt → Flt
  evaluate_tree_simd : List node_t → List Flt → List Flt → List Flt → Flt
  /-- The printed value of `time_stop(start)`. -/
  time_stop : Benchmark → String
  /-- The entries of `NODE_COUNTS` at the end of the run, as printed. -/
  NODE_COUNTS : Benchmark → List (String × String)
  lookup_table_start : List Flt
  lookup_table_start_length : lookup_table_start.length = 128
  split_values_start : List Flt
  split_values_start_length : split_values_start.length = 8

/-- The observable outcome of a run of `main`. -/
structure Run where
  /-- The lines written to `std::cout`. -/
  cout : List String
  /-- The array returned by `read_test_data`, when it was called. -/
  test_inputs : Option (List Flt)
  /-- The passes of the batch loop, in order. -/
  iterations : List Iteration
  exit_status : Nat

/-- The constant `NUM_ROWS`, a non-negative `int`. -/
def NUM_ROWS : Nat := 550000
/-- The constant `NUM_COLS`, a non-negative `int`. -/
def NUM_COLS : Nat := 30
def MISSING_VAL : Flt := Flt.num (-999.0)
def TEST_FILENAME : String := "../higgs-boson/data/test_raw.csv"
def MODEL_FILENAME : String := "../higgs-boson/higgs-model-single-depth-3.txt"

def usage_line : String :=
  "Usage: ./fast-tree \x7bbreadth-first | preorder | preorder-cover | treelite | simd\x7d"

/-- Lines 68-69 and 152-156 (and their copies in the other branches): the lines printed
after a batch loop. -/
def closing_lines {σ : Type} (W : Collaborators σ) (b : Benchmark) : List String :=
  ("Total prediction time: " ++ W.time_stop b ++ "s") ::
    (W.NODE_COUNTS b).map (fun kv => "Node " ++ kv.1 ++ " has true cover " ++ kv.2)

/-- The part the five branches share (lines 60-69 and their copies, then 152-156): the
batch loop with the evaluator call of the branch, the closing lines, status 0. -/
def run_branch {σ : Type} (W : Collaborators σ) (b : Benchmark) (head : List String)
    (test_inputs : List Flt) (evaluate : List Flt → Flt) : Option Run :=
  (batch_loop b evaluate test_inputs NUM_ROWS NUM_COLS).map
    (fun passes => Run.mk (head ++ closing_lines W b) (some test_inputs) passes 0)

/-- Lines 58-156 of `main`: the branch selected by the argument, on the data read. -/
def dispatch {σ : Type} (W : Collaborators σ) (BENCHMARK : String) (test_inputs : List Flt) :
    Option Run :=
  let head := ["Benchmark: " ++ BENCHMARK]
  if BENCHMARK = "breadth-first" then
    let model := W.read_model_breadth_first MODEL_FILENAME
    run_branch W .breadth_first head test_inputs
      (W.evaluate_tree_regression_yelp_breadth_first model)
  else if BENCHMARK = "preorder" then
    let model := W.read_model_preorder MODEL_FILENAME none
    run_branch W .preorder head test_inputs
      (W.evaluate_tree_regression_yelp_preorder model)
  else if BENCHMARK = "preorder-cover" then
    let model := W.read_model_preorder MODEL_FILENAME (some true)
    run_branch W .preorder_cover head test_inputs
      (W.evaluate_tree_regression_yelp_preorder_cover model)
  else if BENCHMARK = "treelite" then
    run_branch W .treelite head test_inputs W.evaluate_tree_regression_treelite
  else if BENCHMARK = "simd" then
    let model := W.read_model_breadth_first MODEL_FILENAME
    let setup := simd_setup model W.lookup_table_start W.split_values_start
    match setup.2 with
    | none => none
    | some split_values =>
      run_branch W .simd head test_inputs
        (W.evaluate_tree_simd model split_values setup.1)
  else
    some (Run.mk (head ++ ["Not a valid benchmark"]) (some test_inputs) [] 1)

/-- The function `main`, on the argument vector (`argv[0]` first): lines 41-44, the call
of `read_test_data` of line 53, then the branches. The result is `none` when the run has
no orderly end: an exception leaves `read_test_data`, or the run leaves defined
behaviour (as when line 133 reads past the end of the model). -/
def main {σ : Type} (W : Collaborators σ) (argv : List String) : Option Run :=
  match argv with
  | [] => some (Run.mk [usage_line] none [] 1)
  | [_] => some (Run.mk [usage_line] none [] 1)
  | _ :: BENCHMARK :: _ =>
    match read_test_data W.stream (W.open_file TEST_FILENAME) NUM_ROWS NUM_COLS
        MISSING_VAL with
    | Outcome.ok test_inputs => dispatch W BENCHMARK test_inputs
    | Outcome.throws => none
    | Outcome.undefined => none

/-- The name that selects a branch. -/
def Benchmark.name : Benchmark → String
  | .breadth_first => "breadth-first"
  | .preorder => "preorder"
  | .preorder_cover => "preorder-cover"
  | .treelite => "treelite"
  | .simd => "simd"

/-- An internal node for examples: it tests feature 0 against the split value `1`. -/
def example_internal : node_t := node_t.mk 0 (Flt.num 1) false (Flt.num 0) 0 0

/-- A leaf for examples, of leaf value `2`. -/
def example_leaf : node_t := node_t.mk 0 (Flt.num 0) true (Flt.num 2) 0 0

/-- The complete tree of depth 4 in breadth-first order: 15 internal nodes, then 16
leaves. -/
def depth4_model : List node_t :=
  List.replicate 15 example_internal ++ List.replicate 16 example_leaf

/-- A set of collaborators for examples: the test file holds the given rows, or cannot
be opened; the loaders return the given model; the treelite evaluator returns the
first value of the row it is given, the others each a constant of their own. -/
def example_world (rows : Option (List (List Flt))) (model : List node_t) :
    Collaborators (List (List Flt)) where
  stream := rows_stream
  open_file := fun name => if name = TEST_FILENAME then rows else none
  read_model_breadth_first := fun _ => model
  read_model_preorder := fun _ _ => model
  evaluate_tree_regression_yelp_breadth_first := fun _ _ => Flt.num 1
  evaluate_tree_regression_yelp_preorder := fun _ _ => Flt.num 2
  evaluate_tree_regression_yelp_preorder_cover := fun _ _ => Flt.num 3
  evaluate_tree_regression_treelite := fun row => row.headD Flt.nan
  evaluate_tree_simd := fun _ _ _ _ => Flt.num 5
  time_stop := fun _ => "0"
  NODE_COUNTS := fun _ => []
  lookup_table_start := List.replicate 128 Flt.nan
  lookup_table_start_length := List.length_replicate 128 Flt.nan
  split_values_start := List.replicate 8 Flt.nan
  split_values_start_length := List.length_replicate 8 Flt.nan

/-- The evaluator call that each of the five names stands for, with the arguments the
branch of that name gives it; for simd it exists when the split values do. -/
def named_evaluator {σ : Type} (W : Collaborators σ) : Benchmark → Option (List Flt → Flt)
  | .breadth_first =>
    some (W.evaluate_tree_regression_yelp_breadth_first
      (W.read_model_breadth_first MODEL_FILENAME))
  | .preorder =>
    some (W.evaluate_tree_regression_yelp_preorder (W.read_model_preorder MODEL_FILENAME none))
  | .preorder_cover =>
    some (W.evaluate_tree_regression_yelp_preorder_cover
      (W.read_model_preorder MODEL_FILENAME (some true)))
  | .treelite => some W.evaluate_tree_regression_treelite
  | .simd =>
    (build_split_values (W.read_model_breadth_first MODEL_FILENAME) W.split_values_start).map
      (fun sv => W.evaluate_tree_simd (W.read_model_breadth_first MODEL_FILENAME) sv
        (build_lookup_table W.lookup_table_start))

/-- One pass per row, in row order: pass `r` has the counter at `r * C`, is given the
data from offset `r * C` on and writes the evaluator's result for it. -/
def row_passes (b : Benchmark) (evaluate : List Flt → Flt) (vals : List Flt) (R C : Nat) :
    List Iteration :=
  (List.range R).map
    (fun r => Iteration.mk b ((r * C : Nat) : Int) (vals.drop (r * C))
      (evaluate (vals.drop (r * C))))

/-! ## Lemmas -/

/-- A loop `for (i = 0; i < n; ++i) t[i] = f(i)` leaves the length alone and puts `f k`
at every `k < n` inside the array. -/
theorem foldl_set_range {α : Type} (f : Nat → α) (n : Nat) (t : List α) :
    ((List.range n).foldl (fun t i => t.set i (f i)) t).length = t.length ∧
    ∀ k, ((List.range n).foldl (fun t i => t.set i (f i)) t)[k]? =
      if k < n ∧ k < t.length then some (f k) else t[k]? := by
  induction n with
  | zero => simp
  | succ n ih =>
    obtain ⟨hlen, hget⟩ := ih
    rw [List.range_succ, List.foldl_append]
    refine ⟨by simp [hlen], fun k => ?_⟩
    simp only [List.foldl_cons, List.foldl_nil]
    by_cases hk : k = n
    · subst hk
      by_cases hl : k < t.length
      · simp [List.getElem?_set, hlen, hl]
      · have hl2 : t.length ≤ k := by omega
        simp [List.getElem?_set, hlen, hl, hget, hl2]
    · have hne : ¬ n = k := fun h => hk h.symm
      rw [List.getElem?_set_ne hne, hget]
      by_cases h1 : k < n
      · have : k < n + 1 := by omega
        simp [h1, this]
      · have : ¬ k < n + 1 := by omega
        simp [h1, this]

theorem build_lookup_table_eq_foldl (t : List Flt) :
    build_lookup_table t =
      (List.range 128).foldl (fun t i => t.set i (lookup_rule i).2) t := by
  unfold build_lookup_table lookup_table_writes
  rw [List.foldl_map]

theorem build_lookup_table_length (t : List Flt) :
    (build_lookup_table t).length = t.length := by
  rw [build_lookup_table_eq_foldl]
  exact (foldl_set_range (fun i => (lookup_rule i).2) 128 t).1

theorem build_lookup_table_get (t : List Flt) (ht : t.length = 128) (i : Nat) (hi : i < 128) :
    (build_lookup_table t)[i]? = some (lookup_rule i).2 := by
  have h := (foldl_set_range (fun i => (lookup_rule i).2) 128 t).2 i
  simp only [ht, hi, and_self, if_true] at h
  rw [build_lookup_table_eq_foldl]
  exact h

/-- The table is the list of the 128 rule values, whatever the array held before. -/
theorem build_lookup_table_eq_map (t : List Flt) (ht : t.length = 128) :
    build_lookup_table t = (List.range 128).map (fun i => (lookup_rule i).2) := by
  apply List.ext_getElem?
  intro k
  by_cases hk : k < 128
  · rw [build_lookup_table_get t ht k hk]
    simp [hk]
  · have h1 : (build_lookup_table t).length ≤ k := by
      rw [build_lookup_table_length, ht]; omega
    rw [List.getElem?_eq_none h1, List.getElem?_eq_none (by simp; omega)]

theorem lookup_rule_eq_leaf (i : Nat) (hi : i < 128) :
    some (lookup_rule i).2 = leaf_value (bfs_leaf i) := by
  interval_cases i <;> rfl

theorem bfs_leaf_range (i : Nat) (hi : i < 128) : 8 ≤ bfs_leaf i ∧ bfs_leaf i ≤ 15 := by
  interval_cases i <;> decide

/-- Two indices that agree on the bits of the nodes one of them visits reach the same leaf. -/
theorem bfs_descend_agree (i k : Nat) :
    ∀ (fuel node : Nat),
      (∀ n ∈ bfs_visited fuel i node, i.testBit (n - 1) = k.testBit (n - 1)) →
      bfs_descend fuel k node = bfs_descend fuel i node := by
  intro fuel
  induction fuel with
  | zero => intro node _; rfl
  | succ fuel ih =>
    intro node h
    unfold bfs_descend
    by_cases hn : node < 8
    · have hv : bfs_visited (fuel + 1) i node =
          node :: bfs_visited fuel i
            (if i.testBit (node - 1) then 2 * node else 2 * node + 1) := by
        simp [bfs_visited, hn]
      rw [hv] at h
      have hb : i.testBit (node - 1) = k.testBit (node - 1) := h node (by simp)
      simp only [hn, if_true]
      rw [← hb]
      exact ih _ (fun n hmem => h n (List.mem_cons_of_mem _ hmem))
    · simp [hn]

/-- Lines 131-135 on a model of at least 7 entries and an array of 8 slots. -/
theorem build_split_values_eq (a0 a1 a2 a3 a4 a5 a6 : node_t) (rest : List node_t)
    (s0 s1 s2 s3 s4 s5 s6 s7 : Flt) :
    build_split_values (a0 :: a1 :: a2 :: a3 :: a4 :: a5 :: a6 :: rest)
        [s0, s1, s2, s3, s4, s5, s6, s7] =
      some [a0.split_value, a1.split_value, a2.split_value, a3.split_value,
        a4.split_value, a5.split_value, a6.split_value, Flt.num 0.0] := by
  have hr : List.range 7 = [0, 1, 2, 3, 4, 5, 6] := by decide
  unfold build_split_values
  rw [hr]
  simp [List.foldlM]

theorem list_length_ge_seven {α : Type} (l : List α) (h : 7 ≤ l.length) :
    ∃ a0 a1 a2 a3 a4 a5 a6 rest, l = a0 :: a1 :: a2 :: a3 :: a4 :: a5 :: a6 :: rest := by
  match l, h with
  | a0 :: a1 :: a2 :: a3 :: a4 :: a5 :: a6 :: rest, _ => exact ⟨a0, a1, a2, a3, a4, a5, a6, rest, rfl⟩

theorem list_length_eq_eight {α : Type} (l : List α) (h : l.length = 8) :
    ∃ s0 s1 s2 s3 s4 s5 s6 s7, l = [s0, s1, s2, s3, s4, s5, s6, s7] := by
  match l, h with
  | [s0, s1, s2, s3, s4, s5, s6, s7], _ => exact ⟨s0, s1, s2, s3, s4, s5, s6, s7, rfl⟩

/-- With fewer than 7 entries line 133 reads past the end of the model. -/
theorem build_split_values_short (model : List node_t) (sv : List Flt)
    (h : model.length < 7) : build_split_values model sv = none := by
  match model, h with
  | [], _ => rfl
  | [_], _ => rfl
  | [_, _], _ => rfl
  | [_, _, _], _ => rfl
  | [_, _, _, _], _ => rfl
  | [_, _, _, _, _], _ => rfl
  | [_, _, _, _, _, _], _ => rfl


/-- An expression whose value is within `int` evaluates to that value. -/
theorem wrap32_of_fits (x : Int) (h0 : -2147483648 ≤ x) (h1 : x < 2147483648) :
    wrap32 x = x := by
  unfold wrap32
  omega

theorem wrap32_natCast (n : Nat) (h : n < 2 ^ 31) : wrap32 (n : Int) = (n : Int) := by
  apply wrap32_of_fits <;> omega

/-- The offset of a cell inside an array that fits `int`. -/
theorem cell_offset (i C j len : Nat) (h : i * C + j < len) (hlen : len < 2 ^ 31) :
    wrap32 ((i : Int) * (C : Int)) + (j : Int) = ((i * C + j : Nat) : Int) := by
  have h1 : ((i : Int) * (C : Int)) = ((i * C : Nat) : Int) := by push_cast; rfl
  rw [h1, wrap32_natCast (i * C) (by omega)]
  push_cast
  rfl

theorem Outcome.bind_ok {α β : Type} (a : α) (f : α → Outcome β) :
    Outcome.bind (Outcome.ok a) f = f a := rfl

theorem Outcome.map_ok {α β : Type} (a : α) (f : α → β) :
    Outcome.map f (Outcome.ok a) = Outcome.ok (f a) := rfl

/-- One pass of the inner loop, inside an array that fits `int`. -/
theorem read_cell_ok {σ : Type} (S : IStream σ) (C : Nat) (mv : Flt) (i : Nat)
    (st : List Flt × σ) (j : Nat) (h : i * C + j < st.1.length)
    (hlen : st.1.length < 2 ^ 31) :
    read_cell S (C : Int) mv i st j =
      Outcome.ok (st.1.set (i * C + j) (translate_missing mv (S.extract st.2).1),
        if (j : Int) ≠ wrap32 ((C : Int) - 1) then S.getline_comma (S.extract st.2).2
        else (S.extract st.2).2) := by
  unfold read_cell
  simp only [cell_offset i C j st.1.length h hlen]
  have hc : (0 : Int) ≤ ((i * C + j : Nat) : Int) ∧
      ((i * C + j : Nat) : Int) < (st.1.length : Int) := by omega
  rw [if_pos hc, Int.toNat_ofNat]

/-- The inner loop of `read_test_data` after `n` passes in row `i`. -/
theorem read_cells_spec {σ : Type} (S : IStream σ) (C : Nat) (mv : Flt) (i : Nat)
    (vals : List Flt) (s : σ) (hlen : vals.length < 2 ^ 31) (n : Nat)
    (hn : i * C + n ≤ vals.length) :
    ∃ st, (List.range n).foldl
        (fun a j => Outcome.bind a (fun st => read_cell S (C : Int) mv i st j))
        (Outcome.ok (vals, s)) = Outcome.ok st ∧
      st.2 = stream_after_cells S (C : Int) s n ∧ st.1.length = vals.length ∧
      (∀ j, j < n → st.1[i * C + j]? =
        some (translate_missing mv (S.extract (stream_after_cells S (C : Int) s j)).1)) ∧
      (∀ k, (k < i * C ∨ i * C + n ≤ k) → st.1[k]? = vals[k]?) := by
  induction n with
  | zero =>
    refine ⟨(vals, s), rfl, rfl, rfl, ?_, ?_⟩
    · intro j hj; omega
    · intro k _; rfl
  | succ n ih =>
    obtain ⟨st, hst, hs, hl, hin, hout⟩ := ih (by omega)
    rw [List.range_succ, List.foldl_append, hst]
    rw [List.foldl_cons, List.foldl_nil, Outcome.bind_ok,
      read_cell_ok S C mv i st n (by omega) (by omega)]
    refine ⟨_, rfl, ?_, ?_, ?_, ?_⟩
    · simp only [stream_after_cells, hs]
    · simp only [List.length_set, hl]
    · intro j hj
      by_cases hjn : j = n
      · subst hjn
        simp only [hs]
        rw [List.getElem?_set]
        have : i * C + j < st.1.length := by omega
        simp [this]
      · have hne : ¬ i * C + n = i * C + j := by omega
        simp only []
        rw [List.getElem?_set_ne hne]
        exact hin j (by omega)
    · intro k hk
      have hne : ¬ i * C + n = k := by omega
      simp only []
      rw [List.getElem?_set_ne hne]
      exact hout k (by omega)

theorem cell_index_lt (C i m j : Nat) (hi : i < m) (hj : j < C) : i * C + j < m * C := by
  have h1 : (i + 1) * C ≤ m * C := Nat.mul_le_mul_right C hi
  rw [Nat.succ_mul] at h1
  omega

/-- The outer loop of `read_test_data` after `m` rows. -/
theorem read_rows_spec {σ : Type} (S : IStream σ) (C : Nat) (mv : Flt)
    (vals : List Flt) (s : σ) (hlen : vals.length < 2 ^ 31) (m : Nat)
    (hm : m * C ≤ vals.length) :
    ∃ st, (List.range m).foldl (read_row S (C : Int) mv) (Outcome.ok (vals, s)) =
        Outcome.ok st ∧
      st.2 = stream_at_row S (C : Int) s m ∧ st.1.length = vals.length ∧
      (∀ i j, i < m → j < C → st.1[i * C + j]? =
        some (translate_missing mv (parsed_field S (C : Int) s i j))) ∧
      (∀ k, m * C ≤ k → st.1[k]? = vals[k]?) := by
  induction m with
  | zero =>
    refine ⟨(vals, s), rfl, rfl, rfl, ?_, ?_⟩
    · intro i j hi; omega
    · intro k _; rfl
  | succ m ih =>
    have hsm : (m + 1) * C = m * C + C := Nat.succ_mul m C
    obtain ⟨st, hst, hs, hl, hin, hout⟩ := ih (by omega)
    obtain ⟨v, t⟩ := st
    simp only at hs hl hin hout
    subst hs
    obtain ⟨st2, hst2, cs, clen, cin, cout⟩ :=
      read_cells_spec S C mv m v (stream_at_row S (C : Int) s m) (by omega) C (by omega)
    rw [List.range_succ, List.foldl_append, hst]
    rw [List.foldl_cons, List.foldl_nil, read_row, Int.toNat_ofNat, hst2, Outcome.map_ok]
    refine ⟨_, rfl, ?_, ?_, ?_, ?_⟩
    · simp only [stream_at_row, cs, Int.toNat_ofNat]
    · simp only [clen, hl]
    · intro i j hi hj
      by_cases him : i = m
      · subst him
        simp only []
        rw [cin j hj]
        rfl
      · have hlt : i * C + j < m * C := cell_index_lt C i m j (by omega) hj
        simp only []
        rw [cout (i * C + j) (Or.inl hlt)]
        exact hin i j (by omega) hj
    · intro k hk
      simp only []
      rw [cout k (Or.inr (by omega))]
      exact hout k (by omega)

/-- The array `read_test_data` returns when the product of the counts fits `int`: it
has `R * C` elements, and for an opened file the cell of row `i` and column `j` is
stored at `i * C + j`. -/
theorem read_test_data_ok {σ : Type} (S : IStream σ) (infile : Option σ) (R C : Nat)
    (mv : Flt) (hfit : R * C < 2 ^ 31) :
    ∃ vals, read_test_data S infile (R : Int) (C : Int) mv = Outcome.ok vals ∧
      vals.length = R * C ∧
      (infile = none → vals = List.replicate (R * C) (Flt.num 0.0)) ∧
      (∀ s, infile = some s → ∀ i j, i < R → j < C →
        vals[i * C + j]? = some (translate_missing mv (parsed_field S (C : Int) s i j))) := by
  have hprod : wrap32 ((R : Int) * (C : Int)) = ((R * C : Nat) : Int) := by
    have h1 : ((R : Int) * (C : Int)) = ((R * C : Nat) : Int) := by push_cast; rfl
    rw [h1, wrap32_natCast _ hfit]
  have hnn : ¬ ((R * C : Nat) : Int) < 0 := by omega
  unfold read_test_data
  simp only [hprod, hnn, if_false, Int.toNat_ofNat]
  cases infile with
  | none =>
    refine ⟨_, rfl, by simp, fun _ => rfl, ?_⟩
    intro s hs
    exact absurd hs (by simp)
  | some s =>
    obtain ⟨st, hst, _, hl, hin, _⟩ :=
      read_rows_spec S C mv (List.replicate (R * C) (Flt.num 0.0)) s (by simpa using hfit) R
        (by simp)
    simp only [hst, Outcome.map_ok]
    refine ⟨_, rfl, by simpa using hl, fun h => absurd h (by simp), ?_⟩
    intro s2 hs2 i j hi hj
    have : s = s2 := Option.some.inj hs2
    subst this
    exact hin i j hi hj

/-- The loop ends at once when the counter is not below the bound. -/
theorem batch_loop_from_exit (b : Benchmark) (ev : List Flt → Flt) (vals : List Flt)
    (bound C : Int) (fuel : Nat) (i : Int) (h : ¬ i < bound) :
    batch_loop_from b ev vals bound C (fuel + 1) i = some [] := by
  rw [batch_loop_from, if_neg h]

/-- One pass of the loop at a counter inside the array. -/
theorem batch_loop_from_pass (b : Benchmark) (ev : List Flt → Flt) (vals : List Flt)
    (bound C : Int) (fuel : Nat) (i : Int) (h : i < bound)
    (hi : 0 ≤ i ∧ i < (vals.length : Int)) :
    batch_loop_from b ev vals bound C (fuel + 1) i =
      (batch_loop_from b ev vals bound C fuel (wrap32 (i + C))).map
        (fun rest =>
          Iteration.mk b i (vals.drop i.toNat) (ev (vals.drop i.toNat)) :: rest) := by
  rw [batch_loop_from, if_pos h, if_pos hi]

/-- The batch loop entered at the start of row `r0` makes one pass per remaining row,
when the array has `R * C` elements and that number fits `int`. -/
theorem batch_loop_from_rows (b : Benchmark) (ev : List Flt → Flt) (vals : List Flt)
    (R C : Nat) (hC : 0 < C) (hfit : R * C < 2 ^ 31) (hlen : vals.length = R * C) :
    ∀ n r0 fuel, r0 + n = R → n < fuel →
      batch_loop_from b ev vals ((R * C : Nat) : Int) (C : Int) fuel ((r0 * C : Nat) : Int) =
        some ((List.range' r0 n).map
          (fun r => Iteration.mk b ((r * C : Nat) : Int) (vals.drop (r * C))
            (ev (vals.drop (r * C))))) := by
  intro n
  induction n with
  | zero =>
    intro r0 fuel h hf
    have : r0 = R := by omega
    subst this
    obtain ⟨f, rfl⟩ : ∃ f, fuel = f + 1 := ⟨fuel - 1, by omega⟩
    rw [batch_loop_from_exit _ _ _ _ _ _ _ (by omega)]
    rfl
  | succ n ih =>
    intro r0 fuel h hf
    obtain ⟨f, rfl⟩ : ∃ f, fuel = f + 1 := ⟨fuel - 1, by omega⟩
    have hlt : r0 * C < R * C := Nat.mul_lt_mul_of_pos_right (by omega) hC
    have hle : (r0 + 1) * C ≤ R * C := Nat.mul_le_mul_right C (by omega)
    have hnext : (r0 + 1) * C = r0 * C + C := Nat.succ_mul r0 C
    have hw : wrap32 (((r0 * C : Nat) : Int) + (C : Int)) = (((r0 + 1) * C : Nat) : Int) := by
      rw [hnext]
      have h1 : ((r0 * C : Nat) : Int) + (C : Int) = ((r0 * C + C : Nat) : Int) := by
        push_cast; rfl
      rw [h1, wrap32_natCast _ (by omega)]
    rw [batch_loop_from_pass _ _ _ _ _ _ _ (by omega) (by omega), hw,
      ih (r0 + 1) f (by omega) (by omega), Int.toNat_ofNat]
    rfl

/-- The batch loop on an array of `R * C` elements, that number fitting `int`: one pass
per row, in row order. -/
theorem batch_loop_eq (b : Benchmark) (ev : List Flt → Flt) (vals : List Flt)
    (R C : Nat) (hC : 0 < C) (hfit : R * C < 2 ^ 31) (hlen : vals.length = R * C) :
    batch_loop b ev vals (R : Int) (C : Int) = some (row_passes b ev vals R C) := by
  have hprod : wrap32 ((R : Int) * (C : Int)) = ((R * C : Nat) : Int) := by
    have h1 : ((R : Int) * (C : Int)) = ((R * C : Nat) : Int) := by push_cast; rfl
    rw [h1, wrap32_natCast _ hfit]
  have hR : R ≤ R * C := Nat.le_mul_of_pos_right R hC
  have h := batch_loop_from_rows b ev vals R C hC hfit hlen R 0 4294967296 (by omega)
    (by omega)
  rw [Nat.zero_mul] at h
  unfold batch_loop row_passes
  rw [hprod, List.range_eq_range']
  exact h

theorem row_passes_length (b : Benchmark) (ev : List Flt → Flt) (vals : List Flt)
    (R C : Nat) : (row_passes b ev vals R C).length = R := by
  simp [row_passes]

theorem row_passes_get (b : Benchmark) (ev : List Flt → Flt) (vals : List Flt)
    (R C : Nat) (r : Nat) (hr : r < R) :
    (row_passes b ev vals R C)[r]? =
      some (Iteration.mk b ((r * C : Nat) : Int) (vals.drop (r * C))
        (ev (vals.drop (r * C)))) := by
  simp [row_passes, hr]

theorem row_passes_mem (b : Benchmark) (ev : List Flt → Flt) (vals : List Flt)
    (R C : Nat) (it : Iteration) (h : it ∈ row_passes b ev vals R C) :
    ∃ r, r < R ∧ it = Iteration.mk b ((r * C : Nat) : Int) (vals.drop (r * C))
      (ev (vals.drop (r * C))) := by
  unfold row_passes at h
  rw [List.mem_map] at h
  obtain ⟨r, hr, rfl⟩ := h
  exact ⟨r, List.mem_range.mp hr, rfl⟩

/-- The counts of the driver stay within `int`. -/
theorem driver_counts_fit_int : NUM_ROWS * NUM_COLS < 2 ^ 31 := by decide

theorem NUM_COLS_pos : 0 < NUM_COLS := by decide

/-- No pass moves the counter beyond `R * C`: with `R * C` within `int`, so is every
value the counter takes. -/
theorem row_passes_counter_le (b : Benchmark) (ev : List Flt → Flt) (vals : List Flt)
    (R C : Nat) (it : Iteration) (h : it ∈ row_passes b ev vals R C) :
    it.i + (C : Int) ≤ ((R * C : Nat) : Int) := by
  obtain ⟨r, hr, rfl⟩ := row_passes_mem b ev vals R C it h
  have hle : (r + 1) * C ≤ R * C := Nat.mul_le_mul_right C hr
  rw [Nat.succ_mul] at hle
  show ((r * C : Nat) : Int) + (C : Int) ≤ ((R * C : Nat) : Int)
  omega

theorem build_split_values_some (model : List node_t) (split_values : List Flt)
    (hm : 7 ≤ model.length) (hs : split_values.length = 8) :
    ∃ sv, build_split_values model split_values = some sv := by
  obtain ⟨a0, a1, a2, a3, a4, a5, a6, rest, rfl⟩ := list_length_ge_seven model hm
  obtain ⟨s0, s1, s2, s3, s4, s5, s6, s7, rfl⟩ := list_length_eq_eight split_values hs
  exact ⟨_, build_split_values_eq a0 a1 a2 a3 a4 a5 a6 rest s0 s1 s2 s3 s4 s5 s6 s7⟩

/-- Every string is the name of at most one branch. -/
theorem Benchmark.name_injective (a b : Benchmark) (h : a.name = b.name) : a = b := by
  cases a <;> cases b <;> first | rfl | (exact absurd h (by decide))

/-- At the counts of the driver `read_test_data` returns an array of
`NUM_ROWS * NUM_COLS` elements. -/
theorem main_test_inputs {σ : Type} (W : Collaborators σ) :
    ∃ vals, read_test_data W.stream (W.open_file TEST_FILENAME) (NUM_ROWS : Int)
        (NUM_COLS : Int) MISSING_VAL = Outcome.ok vals ∧
      vals.length = NUM_ROWS * NUM_COLS ∧
      (W.open_file TEST_FILENAME = none →
        vals = List.replicate (NUM_ROWS * NUM_COLS) (Flt.num 0.0)) := by
  obtain ⟨vals, h1, h2, h3, _⟩ :=
    read_test_data_ok W.stream (W.open_file TEST_FILENAME) NUM_ROWS NUM_COLS MISSING_VAL
      driver_counts_fit_int
  exact ⟨vals, h1, h2, h3⟩

/-- The shared part of the branches, on the array of the driver. -/
theorem run_branch_eq {σ : Type} (W : Collaborators σ) (b : Benchmark) (head : List String)
    (vals : List Flt) (ev : List Flt → Flt) (hlen : vals.length = NUM_ROWS * NUM_COLS) :
    run_branch W b head vals ev =
      some (Run.mk (head ++ closing_lines W b) (some vals)
        (row_passes b ev vals NUM_ROWS NUM_COLS) 0) := by
  unfold run_branch
  rw [batch_loop_eq b ev vals NUM_ROWS NUM_COLS NUM_COLS_pos driver_counts_fit_int hlen]
  rfl

/-- The run of `main` past line 53, once `read_test_data` has returned `vals`. -/
theorem main_after_read {σ : Type} (W : Collaborators σ) (prog s : String)
    (rest : List String) (vals : List Flt)
    (h : read_test_data W.stream (W.open_file TEST_FILENAME) (NUM_ROWS : Int)
      (NUM_COLS : Int) MISSING_VAL = Outcome.ok vals) :
    main W (prog :: s :: rest) = dispatch W s vals := by
  unfold main
  simp only [h]

theorem dispatch_breadth_first {σ : Type} (W : Collaborators σ) (vals : List Flt) :
    dispatch W "breadth-first" vals =
      run_branch W .breadth_first ["Benchmark: " ++ "breadth-first"] vals
        (W.evaluate_tree_regression_yelp_breadth_first
          (W.read_model_breadth_first MODEL_FILENAME)) := by
  unfold dispatch
  rw [if_pos rfl]

theorem dispatch_preorder {σ : Type} (W : Collaborators σ) (vals : List Flt) :
    dispatch W "preorder" vals =
      run_branch W .preorder ["Benchmark: " ++ "preorder"] vals
        (W.evaluate_tree_regression_yelp_preorder
          (W.read_model_preorder MODEL_FILENAME none)) := by
  unfold dispatch
  rw [if_neg (by decide), if_pos rfl]

theorem dispatch_preorder_cover {σ : Type} (W : Collaborators σ) (vals : List Flt) :
    dispatch W "preorder-cover" vals =
      run_branch W .preorder_cover ["Benchmark: " ++ "preorder-cover"] vals
        (W.evaluate_tree_regression_yelp_preorder_cover
          (W.read_model_preorder MODEL_FILENAME (some true))) := by
  unfold dispatch
  rw [if_neg (by decide), if_neg (by decide), if_pos rfl]

theorem dispatch_treelite {σ : Type} (W : Collaborators σ) (vals : List Flt) :
    dispatch W "treelite" vals =
      run_branch W .treelite ["Benchmark: " ++ "treelite"] vals
        W.evaluate_tree_regression_treelite := by
  unfold dispatch
  rw [if_neg (by decide), if_neg (by decide), if_neg (by decide), if_pos rfl]

theorem dispatch_simd {σ : Type} (W : Collaborators σ) (vals : List Flt) :
    dispatch W "simd" vals =
      match build_split_values (W.read_model_breadth_first MODEL_FILENAME)
          W.split_values_start with
      | none => none
      | some split_values =>
        run_branch W .simd ["Benchmark: " ++ "simd"] vals
          (W.evaluate_tree_simd (W.read_model_breadth_first MODEL_FILENAME) split_values
            (build_lookup_table W.lookup_table_start)) := by
  unfold dispatch
  rw [if_neg (by decide), if_neg (by decide), if_neg (by decide), if_neg (by decide),
    if_pos rfl]
  simp only [simd_setup]

/-- A run whose argument is the name of a branch: the batch loop of that branch runs on
the data read, with the evaluator call the name stands for, and the run ends with
status 0. -/
theorem main_of_name {σ : Type} (W : Collaborators σ) (prog : String) (b : Benchmark)
    (rest : List String)
    (h : b = Benchmark.simd → 7 ≤ (W.read_model_breadth_first MODEL_FILENAME).length) :
    ∃ vals ev,
      read_test_data W.stream (W.open_file TEST_FILENAME) (NUM_ROWS : Int) (NUM_COLS : Int)
        MISSING_VAL = Outcome.ok vals ∧
      vals.length = NUM_ROWS * NUM_COLS ∧
      named_evaluator W b = some ev ∧
      main W (prog :: b.name :: rest) =
        some (Run.mk (("Benchmark: " ++ b.name) :: closing_lines W b) (some vals)
          (row_passes b ev vals NUM_ROWS NUM_COLS) 0) := by
  obtain ⟨vals, hread, hlen, _⟩ := main_test_inputs W
  cases b with
  | breadth_first =>
    refine ⟨vals, _, hread, hlen, rfl, ?_⟩
    show main W (prog :: "breadth-first" :: rest) = _
    rw [main_after_read W prog _ rest vals hread, dispatch_breadth_first,
      run_branch_eq _ _ _ _ _ hlen]
    rfl
  | preorder =>
    refine ⟨vals, _, hread, hlen, rfl, ?_⟩
    show main W (prog :: "preorder" :: rest) = _
    rw [main_after_read W prog _ rest vals hread, dispatch_preorder,
      run_branch_eq _ _ _ _ _ hlen]
    rfl
  | preorder_cover =>
    refine ⟨vals, _, hread, hlen, rfl, ?_⟩
    show main W (prog :: "preorder-cover" :: rest) = _
    rw [main_after_read W prog _ rest vals hread, dispatch_preorder_cover,
      run_branch_eq _ _ _ _ _ hlen]
    rfl
  | treelite =>
    refine ⟨vals, _, hread, hlen, rfl, ?_⟩
    show main W (prog :: "treelite" :: rest) = _
    rw [main_after_read W prog _ rest vals hread, dispatch_treelite,
      run_branch_eq _ _ _ _ _ hlen]
    rfl
  | simd =>
    obtain ⟨sv, hsv⟩ := build_split_values_some _ W.split_values_start (h rfl)
      W.split_values_start_length
    refine ⟨vals, W.evaluate_tree_simd (W.read_model_breadth_first MODEL_FILENAME) sv
      (build_lookup_table W.lookup_table_start), hread, hlen, ?_, ?_⟩
    · simp only [named_evaluator, hsv, Option.map_some']
    · show main W (prog :: "simd" :: rest) = _
      rw [main_after_read W prog _ rest vals hread, dispatch_simd]
      simp only [hsv]
      rw [run_branch_eq _ _ _ _ _ hlen]
      rfl

/-- The simd branch with a model of fewer than 7 entries has no defined run. -/
theorem main_simd_short {σ : Type} (W : Collaborators σ) (prog : String)
    (rest : List String)
    (h : (W.read_model_breadth_first MODEL_FILENAME).length < 7) :
    main W (prog :: "simd" :: rest) = none := by
  obtain ⟨vals, hread, _, _⟩ := main_test_inputs W
  rw [main_after_read W prog _ rest vals hread, dispatch_simd,
    build_split_values_short _ _ h]

/-- A run whose argument names no branch. -/
theorem main_invalid {σ : Type} (W : Collaborators σ) (prog s : String)
    (rest : List String) (h : ∀ b : Benchmark, s ≠ b.name) :
    ∃ vals,
      read_test_data W.stream (W.open_file TEST_FILENAME) (NUM_ROWS : Int) (NUM_COLS : Int)
        MISSING_VAL = Outcome.ok vals ∧
      main W (prog :: s :: rest) =
        some (Run.mk ["Benchmark: " ++ s, "Not a valid benchmark"] (some vals) [] 1) := by
  obtain ⟨vals, hread, _, _⟩ := main_test_inputs W
  refine ⟨vals, hread, ?_⟩
  have h1 : ¬ s = "breadth-first" := h .breadth_first
  have h2 : ¬ s = "preorder" := h .preorder
  have h3 : ¬ s = "preorder-cover" := h .preorder_cover
  have h4 : ¬ s = "treelite" := h .treelite
  have h5 : ¬ s = "simd" := h .simd
  rw [main_after_read W prog _ rest vals hread]
  simp only [dispatch, if_neg h1, if_neg h2, if_neg h3, if_neg h4, if_neg h5]
  rfl

/-- Every pass of a run is a call of the evaluator the argument names. -/
theorem main_iteration_evaluator {σ : Type} (W : Collaborators σ) (prog s : String)
    (rest : List String) (run : Run) (h : main W (prog :: s :: rest) = some run)
    (it : Iteration) (hit : it ∈ run.iterations) : s = it.evaluator.name := by
  by_cases hv : ∃ b : Benchmark, s = b.name
  · obtain ⟨b, rfl⟩ := hv
    by_cases hshort : b = Benchmark.simd ∧ (W.read_model_breadth_first MODEL_FILENAME).length < 7
    · obtain ⟨rfl, hlen⟩ := hshort
      have hnone : main W (prog :: Benchmark.simd.name :: rest) = none :=
        main_simd_short W prog rest hlen
      rw [hnone] at h
      exact absurd h (by simp)
    · obtain ⟨vals, ev, _, _, _, hev⟩ := main_of_name W prog b rest (by
        intro hb
        by_contra hlt
        exact hshort ⟨hb, Nat.lt_of_not_le hlt⟩)
      rw [hev] at h
      have hrun := Option.some.inj h
      subst hrun
      dsimp only at hit
      obtain ⟨r, _, rfl⟩ := row_passes_mem b ev vals NUM_ROWS NUM_COLS it hit
      rfl
  · obtain ⟨vals, _, hinv⟩ := main_invalid W prog s rest (fun b hb => hv ⟨b, hb⟩)
    rw [hinv] at h
    have hrun := Option.some.inj h
    subst hrun
    exact absurd hit (by simp)

/-- A negative `int` product on line 15: the allocation throws. -/
theorem read_test_data_throws {σ : Type} (S : IStream σ) (infile : Option σ) (R C : Int)
    (mv : Flt) (h : wrap32 (R * C) < 0) :
    read_test_data S infile R C mv = Outcome.throws := by
  unfold read_test_data
  simp only [h, if_true]

/-- The array returned when the file could not be opened. -/
theorem read_test_data_none {σ : Type} (S : IStream σ) (R C : Int) (mv : Flt)
    (h : ¬ wrap32 (R * C) < 0) :
    read_test_data S none R C mv =
      Outcome.ok (List.replicate (wrap32 (R * C)).toNat (Flt.num 0.0)) := by
  unfold read_test_data
  simp only [h, if_false]

/-- A batch loop whose `int` bound is not positive makes no pass. -/
theorem batch_loop_no_pass (b : Benchmark) (ev : List Flt → Flt) (vals : List Flt)
    (R C : Int) (h : ¬ 0 < wrap32 (R * C)) : batch_loop b ev vals R C = some [] := by
  unfold batch_loop
  exact batch_loop_from_exit b ev vals (wrap32 (R * C)) C 4294967295 0 h

theorem wrap32_overflow_example : wrap32 (46341 * 46341) = -2147479015 := by decide

/-- With the file not opened, the run of a named branch is the batch loop over an array
of zeros. -/
theorem main_of_name_unopened {σ : Type} (W : Collaborators σ) (prog : String)
    (b : Benchmark) (rest : List String)
    (hopen : W.open_file TEST_FILENAME = none)
    (h : b = Benchmark.simd → 7 ≤ (W.read_model_breadth_first MODEL_FILENAME).length) :
    ∃ ev, main W (prog :: b.name :: rest) =
      some (Run.mk (("Benchmark: " ++ b.name) :: closing_lines W b)
        (some (List.replicate (NUM_ROWS * NUM_COLS) (Flt.num 0.0)))
        (row_passes b ev (List.replicate (NUM_ROWS * NUM_COLS) (Flt.num 0.0)) NUM_ROWS
          NUM_COLS) 0) := by
  obtain ⟨vals, ev, hread, _, _, hev⟩ := main_of_name W prog b rest h
  obtain ⟨vals2, hread2, _, hzero⟩ := main_test_inputs W
  have heq : vals = vals2 := by
    have h3 := hread.symm.trans hread2
    injection h3
  rw [heq, hzero hopen] at hev
  exact ⟨ev, hev⟩

/-- The run of the simd branch: the evaluator gets the model, the split values of lines
131-135 and the table of lines 111-130. -/
theorem main_simd {σ : Type} (W : Collaborators σ) (prog : String) (rest : List String)
    (sv : List Flt)
    (h : build_split_values (W.read_model_breadth_first MODEL_FILENAME)
      W.split_values_start = some sv) :
    ∃ vals, vals.length = NUM_ROWS * NUM_COLS ∧
      main W (prog :: "simd" :: rest) =
        some (Run.mk (("Benchmark: " ++ "simd") :: closing_lines W Benchmark.simd)
          (some vals)
          (row_passes Benchmark.simd
            (W.evaluate_tree_simd (W.read_model_breadth_first MODEL_FILENAME) sv
              (build_lookup_table W.lookup_table_start))
            vals NUM_ROWS NUM_COLS) 0) := by
  obtain ⟨vals, hread, hlen, _⟩ := main_test_inputs W
  refine ⟨vals, hlen, ?_⟩
  rw [main_after_read W prog _ rest vals hread, dispatch_simd]
  simp only [h]
  rw [run_branch_eq _ _ _ _ _ hlen]
  rfl

/-! ## The claims -/

/-- C1: every entry `lookup_table[i]`, `i` in 0..127, is the constant of the leaf (8..15)
that the breadth-first descent of the complete depth-3 tree reaches when bit `j-1` of `i`
is the outcome at internal node `j`; hence two indices that agree on the three bits along
the path of one of them have the same entry. -/
theorem lookup_table_is_bfs_leaf (t : List Flt) (ht : t.length = 128) :
    (∀ i, i < 128 →
      8 ≤ bfs_leaf i ∧ bfs_leaf i ≤ 15 ∧ (bfs_path i).length = 3 ∧
      (build_lookup_table t)[i]? = leaf_value (bfs_leaf i)) ∧
    (∀ i k, i < 128 → k < 128 →
      (∀ n ∈ bfs_path i, i.testBit (n - 1) = k.testBit (n - 1)) →
      (build_lookup_table t)[k]? = (build_lookup_table t)[i]?) := by
  constructor
  · intro i hi
    refine ⟨(bfs_leaf_range i hi).1, (bfs_leaf_range i hi).2, ?_, ?_⟩
    · interval_cases i <;> decide
    · rw [build_lookup_table_get t ht i hi]
      exact lookup_rule_eq_leaf i hi
  · intro i k hi hk h
    rw [build_lookup_table_get t ht i hi, build_lookup_table_get t ht k hk,
      lookup_rule_eq_leaf i hi, lookup_rule_eq_leaf k hk]
    unfold bfs_leaf
    rw [bfs_descend_agree i k 3 1 h]

/-- Witness of C1: from an array of 128 NaN, entry 5 (bits 0 and 2: nodes 1, 2, 5, leaf 11)
and entry 45, which has the same bits 0, 1 and 4, agree. -/
theorem lookup_table_is_bfs_leaf_witness :
    (List.replicate 128 Flt.nan).length = 128 ∧
    (build_lookup_table (List.replicate 128 Flt.nan))[5]? = leaf_value (bfs_leaf 5) ∧
    (build_lookup_table (List.replicate 128 Flt.nan))[45]? =
      (build_lookup_table (List.replicate 128 Flt.nan))[5]? :=
  ⟨by simp,
   ((lookup_table_is_bfs_leaf (List.replicate 128 Flt.nan) (by simp)).1 5 (by decide)).2.2.2,
   (lookup_table_is_bfs_leaf (List.replicate 128 Flt.nan) (by simp)).2 5 45 (by decide)
     (by decide) (by decide)⟩

/-- C2: in the table construction a match of a larger mask takes precedence: when `i`
matches a tested mask `m2` of which `m` is a proper subset, the branch that assigns
`lookup_table[i]` is not the one of `m` but the one of `m2` or one tested before it; the
mask of the assigning branch is a tested mask that `i` matches and no tested mask matched
by `i` properly contains it; and the entry `lookup_table[i]` of the table built is the
value that this branch stores. -/
theorem lookup_rule_mask_maximal (t : List Flt) (ht : t.length = 128) :
    (∀ i, i < 128 → ∀ m ∈ tested_masks, ∀ m2 ∈ tested_masks,
      m &&& m2 = m → m ≠ m2 → i &&& m2 = m2 →
        (lookup_rule i).1 ≠ m ∧
        tested_masks.indexOf (lookup_rule i).1 ≤ tested_masks.indexOf m2) ∧
    (∀ i, i < 128 →
      (lookup_rule i).1 ∈ tested_masks ∧ i &&& (lookup_rule i).1 = (lookup_rule i).1 ∧
      ∀ m2 ∈ tested_masks, i &&& m2 = m2 →
        (lookup_rule i).1 &&& m2 = (lookup_rule i).1 → m2 = (lookup_rule i).1) ∧
    (∀ i, i < 128 → lookup_table_writes[i]? = some (i, (lookup_rule i).2)) ∧
    (∀ i, i < 128 → (build_lookup_table t)[i]? = some (lookup_rule i).2) ∧
    (∀ i, i < 128 →
      (lookup_rule i).1 ∈ tested_masks ∧
      ∃ c, (List.zip tested_masks leaf_constants)[tested_masks.indexOf (lookup_rule i).1]? =
          some ((lookup_rule i).1, c) ∧
        (build_lookup_table t)[i]? = some c) := by
  refine ⟨?_, ?_, ?_, fun i hi => build_lookup_table_get t ht i hi, ?_⟩
  · decide
  · decide
  · intro i hi
    simp [lookup_table_writes, hi]
  · intro i hi
    refine ⟨?_, (lookup_rule i).2, ?_, build_lookup_table_get t ht i hi⟩
    · unfold lookup_rule tested_masks
      split_ifs <;> simp
    · unfold lookup_rule tested_masks leaf_constants
      split_ifs <;> rfl

/-- Witness of C2: index 15 matches the masks 11, 3 and 1; the branch of mask 11 assigns
its entry, not the branch of mask 3, and the table built from an array of 128 NaN holds
the constant of that branch at index 15. -/
theorem lookup_rule_mask_maximal_witness :
    (List.replicate 128 Flt.nan).length = 128 ∧
    ((lookup_rule 15).1 ≠ 3 ∧
      tested_masks.indexOf (lookup_rule 15).1 ≤ tested_masks.indexOf 11) ∧
    (build_lookup_table (List.replicate 128 Flt.nan))[15]? =
      some (Flt.num (-0.0825883001)) :=
  ⟨by simp,
   (lookup_rule_mask_maximal (List.replicate 128 Flt.nan) (by simp)).1 15 (by decide) 3
     (by decide) 11 (by decide) (by decide) (by decide) (by decide),
   (lookup_rule_mask_maximal (List.replicate 128 Flt.nan) (by simp)).2.2.2.1 15 (by decide)⟩

/-- C3: the table has exactly 128 entries; the construction stores exactly once at every
index 0..127 and nowhere else, the stored value being one of the 8 leaf constants; and
each of the 8 branches (mask and constant) is the one taken at some index, so each
constant is an entry and no bit-test rule is shadowed by the earlier ones. -/
theorem lookup_table_total_and_onto (t : List Flt) (ht : t.length = 128) :
    (build_lookup_table t).length = 128 ∧
    (∀ i, i < 128 → (lookup_table_writes.map Prod.fst).count i = 1) ∧
    (∀ w ∈ lookup_table_writes, w.1 < 128) ∧
    (∀ i, i < 128 → ∃ c ∈ leaf_constants, (build_lookup_table t)[i]? = some c) ∧
    (∀ p ∈ List.zip tested_masks leaf_constants,
      ∃ i, i < 128 ∧ lookup_rule i = p ∧ (build_lookup_table t)[i]? = some p.2) ∧
    leaf_constants.Nodup := by
  refine ⟨?_, ?_, ?_, ?_, ?_, ?_⟩
  · rw [build_lookup_table_length, ht]
  · intro i hi
    have hm : lookup_table_writes.map Prod.fst = List.range 128 := by
      unfold lookup_table_writes
      rw [List.map_map]
      exact List.map_id _
    rw [hm]
    exact List.count_eq_one_of_mem (List.nodup_range 128) (List.mem_range.mpr hi)
  · intro w hw
    unfold lookup_table_writes at hw
    rw [List.mem_map] at hw
    obtain ⟨i, hi, rfl⟩ := hw
    exact List.mem_range.mp hi
  · intro i hi
    refine ⟨(lookup_rule i).2, ?_, build_lookup_table_get t ht i hi⟩
    unfold lookup_rule leaf_constants
    split_ifs <;> simp
  · intro p hp
    simp only [tested_masks, leaf_constants, List.zip_cons_cons, List.zip_nil_right,
      List.mem_cons, List.mem_singleton, List.not_mem_nil, or_false] at hp
    rcases hp with h | h | h | h | h | h | h | h
    · exact ⟨11, by decide, by rw [h]; rfl, by rw [build_lookup_table_get t ht 11 (by decide), h]; rfl⟩
    · exact ⟨3, by decide, by rw [h]; rfl, by rw [build_lookup_table_get t ht 3 (by decide), h]; rfl⟩
    · exact ⟨17, by decide, by rw [h]; rfl, by rw [build_lookup_table_get t ht 17 (by decide), h]; rfl⟩
    · exact ⟨1, by decide, by rw [h]; rfl, by rw [build_lookup_table_get t ht 1 (by decide), h]; rfl⟩
    · exact ⟨36, by decide, by rw [h]; rfl, by rw [build_lookup_table_get t ht 36 (by decide), h]; rfl⟩
    · exact ⟨4, by decide, by rw [h]; rfl, by rw [build_lookup_table_get t ht 4 (by decide), h]; rfl⟩
    · exact ⟨64, by decide, by rw [h]; rfl, by rw [build_lookup_table_get t ht 64 (by decide), h]; rfl⟩
    · exact ⟨0, by decide, by rw [h]; rfl, by rw [build_lookup_table_get t ht 0 (by decide), h]; rfl⟩
  · simp only [leaf_constants, List.nodup_cons, List.mem_cons, List.mem_singleton,
      Flt.num.injEq, List.not_mem_nil, List.nodup_nil]
    norm_num

/-- Witness of C3: from an array of 128 NaN the table has 128 entries and index 36 holds
the constant of the branch of mask 36. -/
theorem lookup_table_total_and_onto_witness :
    (List.replicate 128 Flt.nan).length = 128 ∧
    (build_lookup_table (List.replicate 128 Flt.nan)).length = 128 ∧
    (lookup_table_writes.map Prod.fst).count 36 = 1 :=
  ⟨by simp,
   (lookup_table_total_and_onto (List.replicate 128 Flt.nan) (by simp)).1,
   (lookup_table_total_and_onto (List.replicate 128 Flt.nan) (by simp)).2.1 36 (by decide)⟩

/-- C8: for a breadth-first model of at least 7 entries the array `split_values` has 8
slots; slot `k`, `k` in 0..6, is the `split_value` of entry `k` of the model, and slot 7
is the placeholder `0.0` whatever the model; this array is the one every call of the
bitmask evaluator receives. -/
theorem split_values_first_seven {σ : Type} (W : Collaborators σ) (prog : String)
    (rest : List String)
    (hm : 7 ≤ (W.read_model_breadth_first MODEL_FILENAME).length) :
    ∃ sv, build_split_values (W.read_model_breadth_first MODEL_FILENAME)
        W.split_values_start = some sv ∧
      sv.length = 8 ∧
      (∀ k, k < 7 →
        sv[k]? = ((W.read_model_breadth_first MODEL_FILENAME)[k]?).map node_t.split_value) ∧
      sv[7]? = some (Flt.num 0.0) ∧
      ∃ run, main W (prog :: "simd" :: rest) = some run ∧
        run.iterations.length = NUM_ROWS ∧
        ∀ it ∈ run.iterations,
          it.prediction =
            W.evaluate_tree_simd (W.read_model_breadth_first MODEL_FILENAME) sv
              (build_lookup_table W.lookup_table_start) it.row := by
  obtain ⟨a0, a1, a2, a3, a4, a5, a6, tl, hmodel⟩ := list_length_ge_seven _ hm
  obtain ⟨s0, s1, s2, s3, s4, s5, s6, s7, hstart⟩ :=
    list_length_eq_eight _ W.split_values_start_length
  have hsv := build_split_values_eq a0 a1 a2 a3 a4 a5 a6 tl s0 s1 s2 s3 s4 s5 s6 s7
  rw [← hmodel, ← hstart] at hsv
  obtain ⟨vals, _, hmain⟩ := main_simd W prog rest _ hsv
  refine ⟨_, hsv, rfl, ?_, rfl, _, hmain, ?_, ?_⟩
  · intro k hk
    rw [hmodel]
    interval_cases k <;> simp
  · dsimp only
    exact row_passes_length Benchmark.simd _ vals NUM_ROWS NUM_COLS
  · intro it hit
    dsimp only at hit
    obtain ⟨r, _, rfl⟩ := row_passes_mem _ _ vals NUM_ROWS NUM_COLS it hit
    rfl

/-- Witness of C8: the model of the depth-3 shape, 7 internal nodes then 8 leaves. -/
theorem split_values_first_seven_witness :
    7 ≤ ((example_world none
      (List.replicate 7 example_internal ++ List.replicate 8 example_leaf)
      ).read_model_breadth_first MODEL_FILENAME).length ∧
    ∃ sv, build_split_values
        (List.replicate 7 example_internal ++ List.replicate 8 example_leaf)
        (List.replicate 8 Flt.nan) = some sv ∧ sv.length = 8 :=
  ⟨by decide,
   (split_values_first_seven
      (example_world none (List.replicate 7 example_internal ++ List.replicate 8 example_leaf))
      "fast-tree" [] (by decide)).imp (fun _ h => ⟨h.1, h.2.1⟩)⟩

/-- C9: the lookup table built in the simd branch is the same for any two models (and
any starting contents of the two arrays); the split values do depend on the model. -/
theorem lookup_table_independent_of_model :
    (∀ (m1 m2 : List node_t) (t1 t2 s1 s2 : List Flt),
      t1.length = 128 → t2.length = 128 →
      (simd_setup m1 t1 s1).1 = (simd_setup m2 t2 s2).1) ∧
    (∃ (m1 m2 : List node_t) (t s : List Flt), t.length = 128 ∧ s.length = 8 ∧
      (simd_setup m1 t s).2 ≠ (simd_setup m2 t s).2) := by
  constructor
  · intro m1 m2 t1 t2 s1 s2 h1 h2
    simp only [simd_setup]
    rw [build_lookup_table_eq_map t1 h1, build_lookup_table_eq_map t2 h2]
  · let n1 := node_t.mk 0 (Flt.num 1) false (Flt.num 0) 0 0
    let n2 := node_t.mk 0 (Flt.num 2) false (Flt.num 0) 0 0
    refine ⟨[n1, n1, n1, n1, n1, n1, n1], [n2, n2, n2, n2, n2, n2, n2],
      List.replicate 128 Flt.nan,
      [Flt.nan, Flt.nan, Flt.nan, Flt.nan, Flt.nan, Flt.nan, Flt.nan, Flt.nan],
      by simp, by simp, ?_⟩
    intro h
    simp only [simd_setup] at h
    rw [build_split_values_eq, build_split_values_eq] at h
    simp [n1, n2] at h

/-- Witness of C9: the depth-4 model and the empty model, from different starting
contents of the array, give the same lookup table. -/
theorem lookup_table_independent_of_model_witness :
    (simd_setup depth4_model (List.replicate 128 Flt.nan) []).1 =
      (simd_setup [] (List.replicate 128 (Flt.num 0)) []).1 :=
  lookup_table_independent_of_model.1 depth4_model [] (List.replicate 128 Flt.nan)
    (List.replicate 128 (Flt.num 0)) [] [] (by simp) (by simp)

/-- C4 fails as stated: the complete tree of depth 4 (15 internal nodes, 16 leaves) is
not of the fixed depth-3 shape (7 internal nodes, 8 leaves), yet the simd branch builds
its split values from the first 7 entries and runs the batch loop over all rows, the
run ending with status 0. -/
theorem simd_setup_accepts_other_shape :
    is_fixed_depth3_shape depth4_model = false ∧
    (simd_setup depth4_model (List.replicate 128 Flt.nan) (List.replicate 8 Flt.nan)).2 =
      some [Flt.num 1, Flt.num 1, Flt.num 1, Flt.num 1, Flt.num 1, Flt.num 1, Flt.num 1,
        Flt.num 0.0] ∧
    ∃ run, main (example_world none depth4_model) ["fast-tree", "simd"] = some run ∧
      run.exit_status = 0 ∧ run.iterations.length = NUM_ROWS := by
  refine ⟨by decide, ?_, ?_⟩
  · exact build_split_values_eq example_internal example_internal example_internal
      example_internal example_internal example_internal example_internal
      (List.replicate 8 example_internal ++ List.replicate 16 example_leaf)
      Flt.nan Flt.nan Flt.nan Flt.nan Flt.nan Flt.nan Flt.nan Flt.nan
  · obtain ⟨vals, ev, _, _, _, hev⟩ := main_of_name (example_world none depth4_model)
      "fast-tree" Benchmark.simd [] (fun _ => by decide)
    refine ⟨_, hev, rfl, ?_⟩
    dsimp only
    exact row_passes_length Benchmark.simd ev vals NUM_ROWS NUM_COLS

/-- C4 as amended: the simd branch validates nothing. For every loaded model of at least
7 entries, whatever its numbers of nodes and of leaves, the split-value array (8 slots)
and the lookup table (128 entries) are built, the batch loop runs over all the rows and
the run ends with status 0. -/
theorem simd_setup_no_shape_check {σ : Type} (W : Collaborators σ) (prog : String)
    (rest : List String)
    (hm : 7 ≤ (W.read_model_breadth_first MODEL_FILENAME).length) :
    (∃ sv, (simd_setup (W.read_model_breadth_first MODEL_FILENAME) W.lookup_table_start
        W.split_values_start).2 = some sv ∧ sv.length = 8) ∧
    (simd_setup (W.read_model_breadth_first MODEL_FILENAME) W.lookup_table_start
        W.split_values_start).1.length = 128 ∧
    ∃ run, main W (prog :: "simd" :: rest) = some run ∧ run.exit_status = 0 ∧
      run.iterations.length = NUM_ROWS ∧
      ∀ it ∈ run.iterations, it.evaluator = Benchmark.simd := by
  refine ⟨?_, ?_, ?_⟩
  · obtain ⟨a0, a1, a2, a3, a4, a5, a6, tl, hmodel⟩ := list_length_ge_seven _ hm
    obtain ⟨s0, s1, s2, s3, s4, s5, s6, s7, hsv⟩ :=
      list_length_eq_eight _ W.split_values_start_length
    simp only [simd_setup]
    rw [hmodel, hsv, build_split_values_eq]
    exact ⟨_, rfl, rfl⟩
  · simp only [simd_setup]
    rw [build_lookup_table_length, W.lookup_table_start_length]
  · obtain ⟨vals, ev, _, _, _, hev⟩ := main_of_name W prog Benchmark.simd rest (fun _ => hm)
    refine ⟨_, hev, rfl, ?_, ?_⟩
    · dsimp only
      exact row_passes_length Benchmark.simd ev vals NUM_ROWS NUM_COLS
    intro it hit
    dsimp only at hit
    obtain ⟨r, _, rfl⟩ := row_passes_mem Benchmark.simd ev vals NUM_ROWS NUM_COLS it hit
    rfl

/-- Witness of amended C4: a model of one internal node over 6 leaves (7 entries, not a
depth-3 tree) goes through the simd branch. -/
theorem simd_setup_no_shape_check_witness :
    7 ≤ ((example_world none (example_internal :: List.replicate 6 example_leaf)
      ).read_model_breadth_first MODEL_FILENAME).length ∧
    ∃ run, main (example_world none (example_internal :: List.replicate 6 example_leaf))
        ("fast-tree" :: "simd" :: []) = some run ∧
      run.exit_status = 0 ∧ run.iterations.length = NUM_ROWS ∧
      ∀ it ∈ run.iterations, it.evaluator = Benchmark.simd :=
  ⟨by decide,
   (simd_setup_no_shape_check
      (example_world none (example_internal :: List.replicate 6 example_leaf)) "fast-tree" []
      (by decide)).2.2⟩

/-- C5 fails as stated: with `num_rows = num_cols = 46341` (both positive) the `int`
product of lines 15 and 61 exceeds `INT_MAX` and comes out negative; `read_test_data`
throws, and the batch loop makes no pass at all, not 46341. -/
theorem batch_loop_product_overflow :
    INT_MAX < (46341 : Int) * 46341 ∧
    read_test_data rows_stream (some [[Flt.num 1]]) 46341 46341 (Flt.num (-999.0)) =
      Outcome.throws ∧
    batch_loop Benchmark.treelite (fun row => row.headD Flt.nan)
      (List.replicate 4 (Flt.num 0.0)) 46341 46341 = some [] := by
  refine ⟨by decide, ?_, ?_⟩
  · exact read_test_data_throws _ _ _ _ _ (by rw [wrap32_overflow_example]; decide)
  · exact batch_loop_no_pass _ _ _ _ _ (by rw [wrap32_overflow_example]; decide)

/-- C5 as amended: for `num_rows >= 0` and `num_cols > 0` whose product does not exceed
`INT_MAX`, `read_test_data` returns an array of `num_rows * num_cols` values and the
batch loop makes exactly `num_rows` passes, in row order; pass `r` has
`i = r * num_cols`, hands the evaluator the data from offset `r * num_cols` on, whose
first `num_cols` values are those stored for row `r` (column `j` at position
`r * num_cols + j`, the translated field of that cell when the file was opened), and
writes the result of that call as output line `r`. -/
theorem batch_loop_one_pass_per_row {σ : Type} (S : IStream σ) (infile : Option σ)
    (mv : Flt) (b : Benchmark) (ev : List Flt → Flt) (R C : Nat) (hC : 0 < C)
    (hfit : (R : Int) * (C : Int) ≤ INT_MAX) :
    ∃ vals passes,
      read_test_data S infile (R : Int) (C : Int) mv = Outcome.ok vals ∧
      vals.length = R * C ∧
      batch_loop b ev vals (R : Int) (C : Int) = some passes ∧
      passes.length = R ∧
      (∀ r, r < R →
        passes[r]? =
          some (Iteration.mk b ((r : Int) * (C : Int)) (vals.drop (r * C))
            (ev (vals.drop (r * C))))) ∧
      (∀ r j, r < R → j < C →
        r * C + j < vals.length ∧ (vals.drop (r * C))[j]? = vals[r * C + j]?) ∧
      (∀ s, infile = some s → ∀ r j, r < R → j < C →
        (vals.drop (r * C))[j]? =
          some (translate_missing mv (parsed_field S (C : Int) s r j))) := by
  have hfit2 : R * C < 2 ^ 31 := by
    have h1 : ((R : Int) * (C : Int)) = ((R * C : Nat) : Int) := by push_cast; rfl
    rw [h1] at hfit
    unfold INT_MAX at hfit
    omega
  obtain ⟨vals, hread, hlen, _, hcell⟩ := read_test_data_ok S infile R C mv hfit2
  refine ⟨vals, row_passes b ev vals R C, hread, hlen,
    batch_loop_eq b ev vals R C hC hfit2 hlen, row_passes_length b ev vals R C, ?_, ?_, ?_⟩
  · intro r hr
    rw [row_passes_get b ev vals R C r hr]
    have h1 : ((r * C : Nat) : Int) = (r : Int) * (C : Int) := by push_cast; rfl
    rw [h1]
  · intro r j hr hj
    refine ⟨?_, List.getElem?_drop _ _ _⟩
    rw [hlen]
    exact cell_index_lt C r R j hr hj
  · intro s hs r j hr hj
    rw [List.getElem?_drop]
    exact hcell s hs r j hr hj

/-- Witness of amended C5: two rows of two columns read from a file of two lines. -/
theorem batch_loop_one_pass_per_row_witness :
    0 < 2 ∧ ((2 : Nat) : Int) * ((2 : Nat) : Int) ≤ INT_MAX ∧
    ∃ vals passes,
      read_test_data rows_stream
        (some [[Flt.num 1, Flt.num (-999)], [Flt.num 3, Flt.num 4]]) ((2 : Nat) : Int)
        ((2 : Nat) : Int) (Flt.num (-999)) = Outcome.ok vals ∧
      batch_loop Benchmark.treelite (fun row => row.headD Flt.nan) vals ((2 : Nat) : Int)
        ((2 : Nat) : Int) = some passes ∧
      passes.length = 2 :=
  ⟨by decide, by decide,
   (batch_loop_one_pass_per_row rows_stream
      (some [[Flt.num 1, Flt.num (-999)], [Flt.num 3, Flt.num 4]]) (Flt.num (-999))
      Benchmark.treelite (fun row => row.headD Flt.nan) 2 2 (by decide) (by decide)).imp
     (fun _ h => h.imp (fun _ h2 => ⟨h2.1, h2.2.2.1, h2.2.2.2.1⟩))⟩

/-- C6: for an opened file whose counts have a product within `int`, and a cell of row
`i < num_rows` and column `j < num_cols`, `read_test_data` returns an array in which the
value at `i * num_cols + j` is NaN when the field parsed for the cell compares equal to
`missing_val`, and is the parsed field itself when it does not. -/
theorem read_test_data_translates_sentinel {σ : Type} (S : IStream σ) (s : σ) (R C : Nat)
    (mv : Flt) (i j : Nat) (hfit : R * C < 2 ^ 31) (hi : i < R) (hj : j < C) :
    ∃ vals, read_test_data S (some s) (R : Int) (C : Int) mv = Outcome.ok vals ∧
      vals.length = R * C ∧
      ((parsed_field S (C : Int) s i j).feq mv = true →
        vals[i * C + j]? = some Flt.nan) ∧
      ((parsed_field S (C : Int) s i j).feq mv = false →
        vals[i * C + j]? = some (parsed_field S (C : Int) s i j)) := by
  obtain ⟨vals, hread, hlen, _, hcell⟩ := read_test_data_ok S (some s) R C mv hfit
  have h := hcell s rfl i j hi hj
  refine ⟨vals, hread, hlen, ?_, ?_⟩
  · intro he
    rw [h, translate_missing, he]
    rfl
  · intro he
    rw [h, translate_missing, he]
    rfl

/-- Witness of C6: the second field of the first line is the sentinel `-999`; it is stored
as NaN at position `0 * 2 + 1`. -/
theorem read_test_data_translates_sentinel_witness :
    2 * 2 < 2 ^ 31 ∧ 0 < 2 ∧ 1 < 2 ∧
    ∃ vals, read_test_data rows_stream
        (some [[Flt.num 1, Flt.num (-999)], [Flt.num 3, Flt.num 4]]) ((2 : Nat) : Int)
        ((2 : Nat) : Int) (Flt.num (-999)) = Outcome.ok vals ∧
      vals[0 * 2 + 1]? = some Flt.nan :=
  ⟨by decide, by decide, by decide,
   (read_test_data_translates_sentinel rows_stream
      [[Flt.num 1, Flt.num (-999)], [Flt.num 3, Flt.num 4]] 2 2 (Flt.num (-999)) 0 1
      (by decide) (by decide) (by decide)).imp
     (fun _ h => ⟨h.1, h.2.2.1 (by
        simp [parsed_field, stream_after_cells, stream_at_row, rows_stream, Flt.feq])⟩)⟩

/-- C7 fails as stated: the argument `simd` with the test file opened and a loaded model
of three entries (one internal node over two leaves) has no run in which the simd
evaluator is called: line 133 reads `model[3]` past the end of the model. -/
theorem main_simd_model_too_short :
    Benchmark.simd.name = "simd" ∧
    main (example_world (some [[Flt.num 1]]) [example_internal, example_leaf, example_leaf])
      ["fast-tree", "simd"] = none :=
  ⟨rfl, main_simd_short _ "fast-tree" [] (by decide)⟩

/-- C7 as amended: with no argument the usage line is printed and the run ends with
status 1 before any data is read; with an argument `s`, a pass of the batch loop calls
evaluator `b` only if `s` is the name of `b`; when `s` is the name of `b` (and, for
simd, the loaded model has at least 7 entries) the run makes all its `NUM_ROWS` passes
with the evaluator call that name stands for and no other, and ends with status 0; when
`s` is none of the five names no evaluator is called, "Not a valid benchmark" is printed
and the run ends with status 1. -/
theorem main_selects_one_evaluator {σ : Type} (W : Collaborators σ) :
    (∀ argv : List String, argv.length ≤ 1 →
      main W argv = some (Run.mk [usage_line] none [] 1)) ∧
    (∀ (prog s : String) (rest : List String) (b : Benchmark),
      ((∃ run, main W (prog :: s :: rest) = some run ∧
          ∃ it ∈ run.iterations, it.evaluator = b) → s = b.name) ∧
      (s = b.name →
        (b = Benchmark.simd → 7 ≤ (W.read_model_breadth_first MODEL_FILENAME).length) →
        ∃ ev run, named_evaluator W b = some ev ∧
          main W (prog :: s :: rest) = some run ∧ run.exit_status = 0 ∧
          run.iterations.length = NUM_ROWS ∧
          ∀ it ∈ run.iterations, it.evaluator = b ∧ it.prediction = ev it.row)) ∧
    (∀ (prog s : String) (rest : List String), (∀ b : Benchmark, s ≠ b.name) →
      ∃ vals, main W (prog :: s :: rest) =
        some (Run.mk ["Benchmark: " ++ s, "Not a valid benchmark"] (some vals) [] 1)) ∧
    (∀ b : Benchmark, b.name ∈
      ["breadth-first", "preorder", "preorder-cover", "treelite", "simd"]) ∧
    (named_evaluator W Benchmark.breadth_first =
        some (W.evaluate_tree_regression_yelp_breadth_first
          (W.read_model_breadth_first MODEL_FILENAME)) ∧
      named_evaluator W Benchmark.preorder =
        some (W.evaluate_tree_regression_yelp_preorder
          (W.read_model_preorder MODEL_FILENAME none)) ∧
      named_evaluator W Benchmark.preorder_cover =
        some (W.evaluate_tree_regression_yelp_preorder_cover
          (W.read_model_preorder MODEL_FILENAME (some true))) ∧
      named_evaluator W Benchmark.treelite = some W.evaluate_tree_regression_treelite ∧
      ∀ sv, build_split_values (W.read_model_breadth_first MODEL_FILENAME)
          W.split_values_start = some sv →
        named_evaluator W Benchmark.simd =
          some (W.evaluate_tree_simd (W.read_model_breadth_first MODEL_FILENAME) sv
            (build_lookup_table W.lookup_table_start))) := by
  refine ⟨?_, ?_, ?_, ?_, rfl, rfl, rfl, rfl, ?_⟩
  · intro argv h
    match argv, h with
    | [], _ => rfl
    | [_], _ => rfl
  · intro prog s rest b
    constructor
    · rintro ⟨run, hrun, it, hit, rfl⟩
      exact main_iteration_evaluator W prog s rest run hrun it hit
    · intro hs hm
      subst hs
      obtain ⟨vals, ev, _, _, hnamed, hev⟩ := main_of_name W prog b rest hm
      refine ⟨ev, _, hnamed, hev, rfl, ?_, ?_⟩
      · dsimp only
        exact row_passes_length b ev vals NUM_ROWS NUM_COLS
      · intro it hit
        dsimp only at hit
        obtain ⟨r, _, rfl⟩ := row_passes_mem b ev vals NUM_ROWS NUM_COLS it hit
        exact ⟨rfl, rfl⟩
  · intro prog s rest h
    obtain ⟨vals, _, hmain⟩ := main_invalid W prog s rest h
    exact ⟨vals, hmain⟩
  · intro b
    cases b <;> simp [Benchmark.name]
  · intro sv hsv
    simp only [named_evaluator, hsv, Option.map_some']

/-- Witness of amended C7: the argument `treelite` runs `NUM_ROWS` passes of the treelite
evaluator and of no other; a run without argument; a run with an argument that names no
branch. -/
theorem main_selects_one_evaluator_witness :
    (∃ ev run,
      named_evaluator (example_world none depth4_model) Benchmark.treelite = some ev ∧
      main (example_world none depth4_model) ["fast-tree", "treelite"] = some run ∧
      run.exit_status = 0 ∧ run.iterations.length = NUM_ROWS ∧
      ∀ it ∈ run.iterations,
        it.evaluator = Benchmark.treelite ∧ it.prediction = ev it.row) ∧
    main (example_world none depth4_model) ["fast-tree"] =
      some (Run.mk [usage_line] none [] 1) ∧
    ∃ vals, main (example_world none depth4_model) ["fast-tree", "bogus"] =
      some (Run.mk ["Benchmark: " ++ "bogus", "Not a valid benchmark"] (some vals) [] 1) :=
  ⟨((main_selects_one_evaluator (example_world none depth4_model)).2.1 "fast-tree"
      "treelite" [] Benchmark.treelite).2 rfl (fun h => absurd h (by decide)),
   (main_selects_one_evaluator (example_world none depth4_model)).1 ["fast-tree"]
     (by decide),
   (main_selects_one_evaluator (example_world none depth4_model)).2.2.1 "fast-tree" "bogus" []
     (by intro b; cases b <;> decide)⟩

/-- C10 fails as stated: with `num_rows = -1` and `num_cols = 1`, and with
`num_rows = num_cols = 46341`, the product of line 15 is a negative `int` and
`read_test_data` throws instead of returning an array; and a run of the simd branch
with the file not opened and an empty model evaluates no row. -/
theorem read_test_data_unopened_throws :
    read_test_data rows_stream none (-1) 1 (Flt.num (-999.0)) = Outcome.throws ∧
    read_test_data rows_stream none 46341 46341 (Flt.num (-999.0)) = Outcome.throws ∧
    (example_world none []).open_file TEST_FILENAME = none ∧
    main (example_world none []) ["fast-tree", "simd"] = none := by
  refine ⟨?_, ?_, rfl, main_simd_short _ "fast-tree" [] (by decide)⟩
  · exact read_test_data_throws _ _ _ _ _ (by decide)
  · exact read_test_data_throws _ _ _ _ _ (by rw [wrap32_overflow_example]; decide)

/-- C10 as amended: when the file cannot be opened and the product of the counts is an
`int` from 0 to `INT_MAX`, `read_test_data` returns, without any error, an array of
`num_rows * num_cols` values all `0.0` and none NaN, whatever `missing_val` is; at the
counts of the driver the run goes on and every one of the `NUM_ROWS` passes of the batch
loop gets a row of `NUM_COLS` zeros (in the simd branch, for a model of at least 7
entries). -/
theorem read_test_data_unopened_file {σ : Type} (S : IStream σ) (R C : Int) (mv : Flt)
    (h0 : 0 ≤ R * C) (h1 : R * C ≤ INT_MAX) :
    (∃ vals, read_test_data S none R C mv = Outcome.ok vals ∧
      (vals.length : Int) = R * C ∧
      vals = List.replicate (R * C).toNat (Flt.num 0.0) ∧
      ∀ v ∈ vals, v = Flt.num 0.0 ∧ v.isNaN = false) ∧
    (∀ (W : Collaborators σ) (prog : String) (rest : List String) (b : Benchmark),
      W.open_file TEST_FILENAME = none →
      (b = Benchmark.simd → 7 ≤ (W.read_model_breadth_first MODEL_FILENAME).length) →
      ∃ run, main W (prog :: b.name :: rest) = some run ∧ run.exit_status = 0 ∧
        run.iterations.length = NUM_ROWS ∧
        ∀ it ∈ run.iterations,
          it.row.take NUM_COLS = List.replicate NUM_COLS (Flt.num 0.0)) := by
  constructor
  · have hw : wrap32 (R * C) = R * C := by
      unfold INT_MAX at h1
      exact wrap32_of_fits _ (by omega) (by omega)
    refine ⟨_, read_test_data_none S R C mv (by rw [hw]; omega), ?_, ?_, ?_⟩
    · rw [hw, List.length_replicate]
      exact Int.toNat_of_nonneg h0
    · rw [hw]
    · intro v hv
      rw [List.eq_of_mem_replicate hv]
      exact ⟨rfl, rfl⟩
  · intro W prog rest b hopen hm
    obtain ⟨ev, hev⟩ := main_of_name_unopened W prog b rest hopen hm
    refine ⟨_, hev, rfl, ?_, ?_⟩
    · dsimp only
      exact row_passes_length b ev _ NUM_ROWS NUM_COLS
    · intro it hit
      dsimp only at hit
      obtain ⟨r, hr, rfl⟩ := row_passes_mem b ev _ NUM_ROWS NUM_COLS it hit
      dsimp only
      rw [List.drop_replicate, List.take_replicate]
      have hle : (r + 1) * NUM_COLS ≤ NUM_ROWS * NUM_COLS := Nat.mul_le_mul_right NUM_COLS hr
      rw [Nat.succ_mul] at hle
      congr 1
      omega

/-- Witness of amended C10: two rows of three columns with the sentinel `0.0`: six zeros,
none NaN; and `-2` rows of `-3` columns, whose product is 6 as well. -/
theorem read_test_data_unopened_file_witness :
    ((0 : Int) ≤ 2 * 3 ∧ (2 : Int) * 3 ≤ INT_MAX ∧
      ∃ vals, read_test_data rows_stream none 2 3 (Flt.num 0.0) = Outcome.ok vals ∧
        (vals.length : Int) = 2 * 3 ∧
        vals = List.replicate ((2 : Int) * 3).toNat (Flt.num 0.0) ∧
        ∀ v ∈ vals, v = Flt.num 0.0 ∧ v.isNaN = false) ∧
    ∃ vals, read_test_data rows_stream none (-2) (-3) (Flt.num 0.0) = Outcome.ok vals ∧
      (vals.length : Int) = -2 * -3 ∧
      vals = List.replicate ((-2 : Int) * -3).toNat (Flt.num 0.0) ∧
      ∀ v ∈ vals, v = Flt.num 0.0 ∧ v.isNaN = false :=
  ⟨⟨by decide, by decide,
    (read_test_data_unopened_file rows_stream 2 3 (Flt.num 0.0) (by decide) (by decide)).1⟩,
   (read_test_data_unopened_file rows_stream (-2) (-3) (Flt.num 0.0) (by decide)
     (by decide)).1⟩

end FastTree
